import Mathlib

/-!
Verification of the connection-resolution and client-factory layer of
`@egomobile/azure-storage` (file `src/blobs.ts`).

The process environment is modelled as an association list of
key-value pairs, `List (String × String)`, read in enumeration order
(`Object.keys` order); keys of a real process environment are unique,
which appears as a `Nodup` hypothesis where it matters.  JavaScript
string primitives used by the source (`trim`, `split`, `parseInt`,
regular-expression test) are embedded as executable Lean functions on
the ASCII fragment the source manipulates.  Fallible operations
(the source throws `Error` objects) return `Except String α`, carrying
the thrown message.
-/

namespace AzureStorage

/-- Characters removed by JavaScript `String.prototype.trim` (ASCII
whitespace fragment: space, tab, line feed, carriage return, vertical
tab, form feed). -/
def jsIsWhitespaceChar (c : Char) : Bool :=
  c = ' ' || c = '\t' || c = '\n' || c = '\r' || c = '\x0b' || c = '\x0c'

/-- JavaScript `String.prototype.trim`: drop leading and trailing
whitespace. -/
def jsTrim (s : String) : String :=
  String.mk (((s.data.dropWhile jsIsWhitespaceChar).reverse.dropWhile jsIsWhitespaceChar).reverse)

/-- Numeric value of a list of decimal digit characters. -/
def digitsToNat (l : List Char) : Nat :=
  l.foldl (fun a c => a * 10 + (c.toNat - 48)) 0

/-- Core of JavaScript `parseInt` (radix 10) after trimming: an
optional sign followed by the longest run of leading decimal digits;
no digit yields NaN, modelled as `none`. -/
def jsParseIntCore : List Char → Option Int
  | '-' :: r =>
    let d := r.takeWhile Char.isDigit
    if d.isEmpty then none else some (-(digitsToNat d : Int))
  | '+' :: r =>
    let d := r.takeWhile Char.isDigit
    if d.isEmpty then none else some ((digitsToNat d : Int))
  | r =>
    let d := r.takeWhile Char.isDigit
    if d.isEmpty then none else some ((digitsToNat d : Int))

/-- JavaScript `parseInt(s)` with radix 10; `none` models NaN
(also produced by `parseInt(undefined)`, since no digit is found). -/
def jsParseInt (s : String) : Option Int :=
  jsParseIntCore (jsTrim s).data

/-- JavaScript `String.prototype.split` with a single-character
separator, on the character list. -/
def splitOnChar (c : Char) : List Char → List (List Char)
  | [] => [[]]
  | x :: xs =>
    if x = c then
      [] :: splitOnChar c xs
    else
      match splitOnChar c xs with
      | h :: t => (x :: h) :: t
      | [] => [[x]]

/-- `k.split("_")` from the source, as a list of strings. -/
def jsSplitUnderscore (s : String) : List String :=
  (splitOnChar '_' s.data).map String.mk

/-- Whether the first list is an initial segment of the second. -/
def startsWithChars : List Char → List Char → Bool
  | [], _ => true
  | _ :: _, [] => false
  | p :: ps, c :: cs => p = c && startsWithChars ps cs

/-- Test of the anchored regular expression
`^(AZURE_STORAGE_CONNECTION_)(\d+)$` from
`getAzureStorageConnectionNrFromEnvVar`: the literal 25-character
stem followed by one or more decimal digits and nothing else. -/
def matchesConnectionKey (k : String) : Bool :=
  startsWithChars "AZURE_STORAGE_CONNECTION_".data k.data
    && !(k.data.drop 25).isEmpty
    && (k.data.drop 25).all Char.isDigit

/-- The process environment: keys with their values, in enumeration
order. -/
def Env : Type := List (String × String)

/-- `Object.keys(process.env)`. -/
def envKeys (env : Env) : List String :=
  (env : List (String × String)).map Prod.fst

/-- `process.env[k]`: the value of the first entry with key `k`,
`none` when the variable is unset. -/
def envGet (env : Env) (k : String) : Option String :=
  ((env : List (String × String)).find? (fun kv => kv.fst == k)).map Prod.snd

/-- `getAzureStorageConnectionNrFromEnvVar` from `src/blobs.ts`:
filter the environment keys by the anchored pattern, keep those whose
trimmed value is exactly `name`, take `split("_")[3]` of the first
one and `parseInt` it; a NaN result (no key, in particular) throws
`No azure storage connection <name> found or defined`. -/
def getAzureStorageConnectionNrFromEnvVar (env : Env) (name : String) : Except String Int :=
  let matched := (envKeys env).filter matchesConnectionKey
  let named := matched.filter (fun k =>
    match envGet env k with
    | some v => jsTrim v == name
    | none => false)
  let digitStr := (named.map (fun k => (jsSplitUnderscore k).getD 3 "")).head?
  match digitStr.bind jsParseInt with
  | some connectionNr => .ok connectionNr
  | none => .error ("No azure storage connection " ++ name ++ " found or defined")

/-- Options for a blob storage client (`IBlobStorageClientOptions`). -/
structure IBlobStorageClientOptions where
  url : String
deriving DecidableEq

/-- Options for a container client (`IContainerClientOptions`,
which extends `IBlobStorageClientOptions`). -/
structure IContainerClientOptions where
  url : String
  container : String
deriving DecidableEq

/-- The environment key `AZURE_STORAGE_CONNECTION_<nr>_URL` built by
template interpolation of the resolved connection number. -/
def urlKeyFor (connectionNr : Int) : String :=
  "AZURE_STORAGE_CONNECTION_" ++ toString connectionNr ++ "_URL"

/-- The environment key `AZURE_STORAGE_CONNECTION_<nr>_CONTAINER`
built by template interpolation of the resolved connection number. -/
def containerKeyFor (connectionNr : Int) : String :=
  "AZURE_STORAGE_CONNECTION_" ++ toString connectionNr ++ "_CONTAINER"

/-- `defaultGetBlobStorageClientOptions` from `src/blobs.ts`: resolve
the connection number, read and trim the `_URL` variable, and throw
`Azure storage connection <name> not found` when it is unset or
trims to the empty string. -/
def defaultGetBlobStorageClientOptions (env : Env) (name : String) :
    Except String IBlobStorageClientOptions :=
  match getAzureStorageConnectionNrFromEnvVar env name with
  | .error e => .error e
  | .ok connectionNr =>
    match (envGet env (urlKeyFor connectionNr)).map jsTrim with
    | some url =>
      if url = "" then
        .error ("Azure storage connection " ++ name ++ " not found")
      else
        .ok { url := url }
    | none => .error ("Azure storage connection " ++ name ++ " not found")

/-- Lines 121-124 of the source: `container = container?.trim();` and,
when that is absent or empty, the trimmed `_CONTAINER` environment
value; the resulting value of the mutable `container` local of
`defaultGetContainerClientOptions`. -/
def effectiveContainer (env : Env) (connectionNr : Int) (container : Option String) :
    Option String :=
  match container.map jsTrim with
  | some c =>
    if c = "" then (envGet env (containerKeyFor connectionNr)).map jsTrim else some c
  | none => (envGet env (containerKeyFor connectionNr)).map jsTrim

/-- `defaultGetContainerClientOptions` from `src/blobs.ts`: resolve
the connection number and the storage options, then take the trimmed
caller-supplied container if it is non-empty, otherwise the trimmed
`_CONTAINER` variable; throw `No container defined` when neither
yields a non-empty string. -/
def defaultGetContainerClientOptions (env : Env) (name : String) (container : Option String) :
    Except String IContainerClientOptions :=
  match getAzureStorageConnectionNrFromEnvVar env name with
  | .error e => .error e
  | .ok connectionNr =>
    match defaultGetBlobStorageClientOptions env name with
    | .error e => .error e
    | .ok storageOpts =>
      match effectiveContainer env connectionNr container with
      | some c =>
        if c = "" then .error "No container defined"
        else .ok { url := storageOpts.url, container := c }
      | none => .error "No container defined"

/-- The opaque SDK service client: `BlobServiceClient.fromConnectionString`
is modelled as recording the connection string it was constructed from. -/
structure BlobServiceClient where
  connectionString : String
deriving DecidableEq

/-- `BlobServiceClient.fromConnectionString(url)` of the SDK. -/
def BlobServiceClient.fromConnectionString (url : String) : BlobServiceClient :=
  { connectionString := url }

/-- The opaque SDK container client: a service client scoped to one
container name. -/
structure ContainerClient where
  connectionString : String
  containerName : String
deriving DecidableEq

/-- `serviceClient.getContainerClient(container)` of the SDK. -/
def BlobServiceClient.getContainerClient (c : BlobServiceClient) (container : String) :
    ContainerClient :=
  { connectionString := c.connectionString, containerName := container }

/-- The `optionsOrFunc` argument of `createGetBlobServiceClientFactory`
as a JavaScript value: a function, an options object, or any other
value (a number, a string, `null`, ...), which TypeScript would reject
but the runtime accepts. -/
inductive BlobOptionsOrFunc where
  | func (f : String → Except String IBlobStorageClientOptions)
  | obj (o : IBlobStorageClientOptions)
  | other

/-- Value produced by the normalized `getOptions` of the blob factory:
a proper options object, or the raw non-object value that the
normalization wrapped (the wrapper returns whatever was passed). -/
inductive BlobOptionsValue where
  | opts (o : IBlobStorageClientOptions)
  | nonObject

/-- `createGetBlobServiceClientFactory` from `src/blobs.ts`.
Normalization: a function argument is used as is; any other argument
(object or not) is wrapped in `() => optionsOrFunc`.  The source then
guards `if (typeof getOptions !== "function") throw new TypeError(...)`;
every branch of the normalization produced a function value, so
`typeof getOptions` evaluates to `"function"` at that point and the
guard condition is written here as it evaluates.  The returned
provider destructures `url` from `getOptions(name)` and builds the
SDK client; when the wrapped value was not an object that
destructuring has no `url`, a call-time failure of the opaque SDK
layer, modelled as a call-time error. -/
def createGetBlobServiceClientFactory (optionsOrFunc : BlobOptionsOrFunc) :
    Except String (String → Except String BlobServiceClient) :=
  let getOptions : String → Except String BlobOptionsValue :=
    match optionsOrFunc with
    | .func f => fun name => (f name).map BlobOptionsValue.opts
    | .obj o => fun _ => .ok (BlobOptionsValue.opts o)
    | .other => fun _ => .ok BlobOptionsValue.nonObject
  if ("function" : String) ≠ "function" then
    .error "optionsOrFunc must be a function or object"
  else
    .ok (fun name =>
      match getOptions name with
      | .error e => .error e
      | .ok (BlobOptionsValue.opts o) => .ok (BlobServiceClient.fromConnectionString o.url)
      | .ok BlobOptionsValue.nonObject => .error "TypeError: url is not defined")

/-- The `optionsOrFunc` argument of `createGetContainerClientFactory`
as a JavaScript value. -/
inductive ContainerOptionsOrFunc where
  | func (f : String → Option String → Except String IContainerClientOptions)
  | obj (o : IContainerClientOptions)
  | other

/-- Value produced by the normalized `getOptions` of the container
factory. -/
inductive ContainerOptionsValue where
  | opts (o : IContainerClientOptions)
  | nonObject

/-- `createGetContainerClientFactory` from `src/blobs.ts`; same
normalization, guard and provider shape as the blob flavor, with the
provider additionally destructuring `container` and deriving the
container-scoped client. -/
def createGetContainerClientFactory (optionsOrFunc : ContainerOptionsOrFunc) :
    Except String (String → Option String → Except String ContainerClient) :=
  let getOptions : String → Option String → Except String ContainerOptionsValue :=
    match optionsOrFunc with
    | .func f => fun name customerContainer => (f name customerContainer).map ContainerOptionsValue.opts
    | .obj o => fun _ _ => .ok (ContainerOptionsValue.opts o)
    | .other => fun _ _ => .ok ContainerOptionsValue.nonObject
  if ("function" : String) ≠ "function" then
    .error "optionsOrFunc must be a function or object"
  else
    .ok (fun name customerContainer =>
      match getOptions name customerContainer with
      | .error e => .error e
      | .ok (ContainerOptionsValue.opts o) =>
        .ok ((BlobServiceClient.fromConnectionString o.url).getContainerClient o.container)
      | .ok ContainerOptionsValue.nonObject => .error "TypeError: url is not defined")

/-- The pre-bound `getBlobServiceClient`, built by
`createGetBlobServiceClientFactory(defaultGetBlobStorageClientOptions)`,
applied to a name.  Construction with a function argument always
succeeds; a construction error would surface at module load and is
folded into the call result here. -/
def getBlobServiceClient (env : Env) (name : String) : Except String BlobServiceClient :=
  match createGetBlobServiceClientFactory
      (.func (fun n => defaultGetBlobStorageClientOptions env n)) with
  | .ok provider => provider name
  | .error e => .error e

/-- The pre-bound `getContainerClient`, built by
`createGetContainerClientFactory(defaultGetContainerClientOptions)`,
applied to a name and an optional container override. -/
def getContainerClient (env : Env) (name : String) (container : Option String) :
    Except String ContainerClient :=
  match createGetContainerClientFactory
      (.func (fun n c => defaultGetContainerClientOptions env n c)) with
  | .ok provider => provider name container
  | .error e => .error e

/-- Spec-side description of connection-index resolution (§4.1 of the
specification, `resolveConnectionIndex`): the first environment entry,
in enumeration order, whose key matches the anchored pattern and whose
trimmed value is exactly the requested name; its digits segment parsed
as an integer; otherwise a connection-not-found error naming the
requested name. -/
def resolveConnectionIndex (env : Env) (name : String) : Except String Int :=
  match (env : List (String × String)).find?
      (fun kv => matchesConnectionKey kv.fst && jsTrim kv.snd == name) with
  | none => .error ("No azure storage connection " ++ name ++ " found or defined")
  | some kv =>
    match jsParseInt (String.mk (kv.fst.data.drop 25)) with
    | none => .error ("No azure storage connection " ++ name ++ " found or defined")
    | some n => .ok n

/-- Spec-side description of the effective container (§4.1, container
step 2): the trimmed caller override when it is non-empty after
trimming, otherwise the trimmed `_CONTAINER` environment value. -/
def effectiveContainerSpec (env : Env) (connectionNr : Int) (container : Option String) :
    Option String :=
  match container with
  | some s =>
    if jsTrim s ≠ "" then some (jsTrim s)
    else (envGet env (containerKeyFor connectionNr)).map jsTrim
  | none => (envGet env (containerKeyFor connectionNr)).map jsTrim

/-- The worked example environment of the specification (§8):
connection 1 is named `acme`, with URL `https://x/` and default
container `logs`. -/
def envExample : Env :=
  [("AZURE_STORAGE_CONNECTION_1", "acme"),
   ("AZURE_STORAGE_CONNECTION_1_URL", "https://x/"),
   ("AZURE_STORAGE_CONNECTION_1_CONTAINER", "logs")]

/-- An environment whose URL value carries surrounding whitespace. -/
def envPadded : Env :=
  [("AZURE_STORAGE_CONNECTION_1", "acme"),
   ("AZURE_STORAGE_CONNECTION_1_URL", " https://x/ ")]

/-- An environment whose URL value is whitespace-only. -/
def envNoUrl : Env :=
  [("AZURE_STORAGE_CONNECTION_2", "beta"),
   ("AZURE_STORAGE_CONNECTION_2_URL", "   ")]

/-- An environment with a URL but no `_CONTAINER` variable. -/
def envNoContainer : Env :=
  [("AZURE_STORAGE_CONNECTION_3", "gamma"),
   ("AZURE_STORAGE_CONNECTION_3_URL", "https://y/")]

/-- An environment declaring connection `007` (digits with leading
zeros) under the given name, with URL and container variables for
both the canonical index `7` (values `u`, `c`) and the raw digit
string `007` (values `v`, `w`). -/
def env007 (name u v c w : String) : Env :=
  [("AZURE_STORAGE_CONNECTION_007", name),
   ("AZURE_STORAGE_CONNECTION_7_URL", u),
   ("AZURE_STORAGE_CONNECTION_007_URL", v),
   ("AZURE_STORAGE_CONNECTION_7_CONTAINER", c),
   ("AZURE_STORAGE_CONNECTION_007_CONTAINER", w)]

instance {ε α : Type} [DecidableEq ε] [DecidableEq α] : DecidableEq (Except ε α)
  | .error a, .error b =>
    if h : a = b then .isTrue (by rw [h]) else .isFalse (by intro hc; cases hc; exact h rfl)
  | .error _, .ok _ => .isFalse (by intro hc; cases hc)
  | .ok _, .error _ => .isFalse (by intro hc; cases hc)
  | .ok a, .ok b =>
    if h : a = b then .isTrue (by rw [h]) else .isFalse (by intro hc; cases hc; exact h rfl)

theorem startsWithChars_eq_append {p l : List Char} (h : startsWithChars p l = true) :
    l = p ++ l.drop p.length := by
  induction p generalizing l with
  | nil => simp
  | cons pc ps ih =>
    cases l with
    | nil => simp [startsWithChars] at h
    | cons c cs =>
      simp only [startsWithChars, Bool.and_eq_true, decide_eq_true_eq] at h
      obtain ⟨rfl, hs⟩ := h
      simpa using ih hs

theorem splitOnChar_of_no_sep {c : Char} {l : List Char} (h : ∀ x ∈ l, x ≠ c) :
    splitOnChar c l = [l] := by
  induction l with
  | nil => rfl
  | cons x xs ih =>
    have hx : x ≠ c := h x (List.mem_cons_self x xs)
    have hxs : splitOnChar c xs = [xs] := ih fun y hy => h y (List.mem_cons_of_mem x hy)
    simp [splitOnChar, hx, hxs]

theorem splitOnChar_append_sep {c : Char} {l₁ l₂ : List Char} (h : ∀ x ∈ l₁, x ≠ c) :
    splitOnChar c (l₁ ++ c :: l₂) = l₁ :: splitOnChar c l₂ := by
  induction l₁ with
  | nil => simp [splitOnChar]
  | cons x xs ih =>
    have hx : x ≠ c := h x (List.mem_cons_self x xs)
    have hxs := ih fun y hy => h y (List.mem_cons_of_mem x hy)
    cases hsp : splitOnChar c (xs ++ c :: l₂) with
    | nil => rw [hxs] at hsp; cases hsp
    | cons hd tl =>
      rw [hxs] at hsp
      cases hsp
      simp [splitOnChar, hx, hxs]

theorem splitOnChar_connectionStem (r : List Char) (h : ∀ x ∈ r, x ≠ '_') :
    splitOnChar '_' ("AZURE_STORAGE_CONNECTION_".data ++ r) =
      ["AZURE".data, "STORAGE".data, "CONNECTION".data, r] := by
  have h₁ : "AZURE_STORAGE_CONNECTION_".data ++ r =
      "AZURE".data ++ '_' :: ("STORAGE".data ++ '_' :: ("CONNECTION".data ++ '_' :: r)) := rfl
  rw [h₁, splitOnChar_append_sep (by decide), splitOnChar_append_sep (by decide),
    splitOnChar_append_sep (by decide), splitOnChar_of_no_sep h]

theorem jsSplitUnderscore_getD_of_matches {k : String} (h : matchesConnectionKey k = true) :
    (jsSplitUnderscore k).getD 3 "" = String.mk (k.data.drop 25) := by
  simp only [matchesConnectionKey, Bool.and_eq_true] at h
  obtain ⟨⟨hpre, -⟩, hdig⟩ := h
  have hlen : ("AZURE_STORAGE_CONNECTION_".data).length = 25 := rfl
  have hk : k.data = "AZURE_STORAGE_CONNECTION_".data ++ k.data.drop 25 := by
    have := startsWithChars_eq_append hpre
    rwa [hlen] at this
  have hrest : ∀ x ∈ k.data.drop 25, x ≠ '_' := by
    intro x hx
    have hd : x.isDigit = true := by
      have := List.all_eq_true.mp hdig x hx
      simpa using this
    intro hc
    rw [hc] at hd
    simp [Char.isDigit] at hd
  show ((splitOnChar '_' k.data).map String.mk).getD 3 "" = String.mk (k.data.drop 25)
  conv_lhs => rw [hk]
  rw [splitOnChar_connectionStem _ hrest]
  rfl

theorem find?_congr_mem {α : Type} {p q : α → Bool} (l : List α) (h : ∀ x ∈ l, p x = q x) :
    l.find? p = l.find? q := by
  induction l with
  | nil => rfl
  | cons a l ih =>
    have ha := h a (List.mem_cons_self a l)
    have htl := ih fun x hx => h x (List.mem_cons_of_mem a hx)
    simp only [List.find?_cons, ha]
    cases q a
    · exact htl
    · rfl

theorem envGet_cons_self (kv : String × String) (rest : List (String × String)) :
    envGet (kv :: rest : List (String × String)) kv.fst = some kv.snd := by
  simp [envGet, List.find?_cons]

theorem envGet_cons_ne (kv : String × String) (rest : List (String × String)) {k : String}
    (h : kv.fst ≠ k) :
    envGet (kv :: rest : List (String × String)) k = envGet (rest : List (String × String)) k := by
  have : (kv.fst == k) = false := beq_eq_false_iff_ne.mpr h
  simp [envGet, List.find?_cons, this]

/-- Under unique keys, scanning the key list and looking each key back
up in the environment finds the same entry as scanning the
environment entries directly. -/
theorem find?_keys_eq_find?_entries (env : List (String × String)) (name : String)
    (hnd : (env.map Prod.fst).Nodup) :
    (env.map Prod.fst).find? (fun k =>
        (match envGet env k with
          | some v => jsTrim v == name
          | none => false) && matchesConnectionKey k) =
      (env.find? (fun kv => jsTrim kv.snd == name && matchesConnectionKey kv.fst)).map Prod.fst := by
  induction env with
  | nil => rfl
  | cons kv rest ih =>
    rw [List.map_cons, List.nodup_cons] at hnd
    obtain ⟨hmem, hnd'⟩ := hnd
    have hself : envGet (kv :: rest : List (String × String)) kv.fst = some kv.snd :=
      envGet_cons_self kv rest
    have htail :
        (rest.map Prod.fst).find? (fun k =>
            (match envGet (kv :: rest : List (String × String)) k with
              | some v => jsTrim v == name
              | none => false) && matchesConnectionKey k) =
          (rest.map Prod.fst).find? (fun k =>
            (match envGet (rest : List (String × String)) k with
              | some v => jsTrim v == name
              | none => false) && matchesConnectionKey k) := by
      apply find?_congr_mem
      intro k hk
      have hne : kv.fst ≠ k := fun hc => hmem (hc ▸ hk)
      rw [envGet_cons_ne kv rest hne]
    simp only [List.map_cons, List.find?_cons, hself]
    cases hpa : (jsTrim kv.snd == name && matchesConnectionKey kv.fst) with
    | true => rfl
    | false => rw [htail, ih hnd']

/-- The computation of the mutable `container` local (lines 121-124)
agrees with its formulation in the specification (override first when
non-empty after trimming, environment fallback otherwise). -/
theorem effectiveContainer_eq_spec (env : Env) (idx : Int) (container : Option String) :
    effectiveContainer env idx container = effectiveContainerSpec env idx container := by
  cases container with
  | none => rfl
  | some s =>
    simp only [effectiveContainer, effectiveContainerSpec, Option.map_some']
    by_cases hs : jsTrim s = ""
    · rw [if_pos hs, if_neg (not_not_intro hs)]
    · rw [if_neg hs, if_pos hs]

/-- Inversion of a successful container-level resolution: the
connection number and the storage options resolved, the effective
container came out non-empty, and the result is assembled from the
storage URL and that container. -/
theorem containerOptions_ok_inversion (env : Env) (name : String)
    (container : Option String) (o : IContainerClientOptions)
    (hok : defaultGetContainerClientOptions env name container = .ok o) :
    ∃ idx so, getAzureStorageConnectionNrFromEnvVar env name = .ok idx ∧
      defaultGetBlobStorageClientOptions env name = .ok so ∧
      effectiveContainer env idx container = some o.container ∧
      o.container ≠ "" ∧ o.url = so.url := by
  simp only [defaultGetContainerClientOptions] at hok
  cases hidx : getAzureStorageConnectionNrFromEnvVar env name with
  | error e => simp only [hidx] at hok; exact Except.noConfusion hok
  | ok idx =>
    cases hblob : defaultGetBlobStorageClientOptions env name with
    | error e => simp only [hidx, hblob] at hok; exact Except.noConfusion hok
    | ok so =>
      simp only [hidx, hblob] at hok
      cases hec : effectiveContainer env idx container with
      | none => simp only [hec] at hok; exact Except.noConfusion hok
      | some c =>
        simp only [hec] at hok
        by_cases hc : c = ""
        · rw [if_pos hc] at hok; exact Except.noConfusion hok
        · rw [if_neg hc] at hok
          cases hok
          exact ⟨idx, so, rfl, rfl, hec, hc, rfl⟩

/-- Claim C1: for every connection name, connection-index resolution
enumerates the environment keys matching the anchored pattern
`AZURE_STORAGE_CONNECTION_<digits>`, keeps only those whose trimmed
value equals the requested name exactly, takes the digits segment of
the first such key in enumeration order and returns it parsed as an
integer; if no key matched, or parsing yields not-a-number, it fails
with a connection-not-found error identifying the requested name.
Stated as: under unique environment keys, the code path
(`getAzureStorageConnectionNrFromEnvVar`) equals the specification
description (`resolveConnectionIndex`). -/
theorem getConnectionNr_eq_resolveConnectionIndex (env : Env) (name : String)
    (hnd : ((env : List (String × String)).map Prod.fst).Nodup) :
    getAzureStorageConnectionNrFromEnvVar env name = resolveConnectionIndex env name := by
  have hcomm :
      (env : List (String × String)).find?
          (fun kv => matchesConnectionKey kv.fst && jsTrim kv.snd == name) =
        (env : List (String × String)).find?
          (fun kv => jsTrim kv.snd == name && matchesConnectionKey kv.fst) :=
    find?_congr_mem _ (fun kv _ => Bool.and_comm _ _)
  simp only [getAzureStorageConnectionNrFromEnvVar, resolveConnectionIndex, envKeys,
    List.filter_filter, hcomm]
  rw [List.head?_map, List.filter_head?, find?_keys_eq_find?_entries env name hnd]
  cases hfind : (env : List (String × String)).find?
      (fun kv => jsTrim kv.snd == name && matchesConnectionKey kv.fst) with
  | none => rfl
  | some kv =>
    have hP := List.find?_some hfind
    rw [Bool.and_eq_true] at hP
    have hmk : matchesConnectionKey kv.fst = true := hP.2
    simp only [Option.map_some', Option.bind_some, Option.some_bind,
      jsSplitUnderscore_getD_of_matches hmk]
    cases jsParseInt (String.mk (kv.fst.data.drop 25)) <;> rfl

/-- Witness for C1 at a concrete environment with unique keys. -/
theorem getConnectionNr_eq_resolveConnectionIndex_witness :
    ((envExample : List (String × String)).map Prod.fst).Nodup ∧
      getAzureStorageConnectionNrFromEnvVar envExample "acme" =
        resolveConnectionIndex envExample "acme" :=
  ⟨by decide, getConnectionNr_eq_resolveConnectionIndex envExample "acme" (by decide)⟩

/-- Counterexample to claim C2 as stated: with
`AZURE_STORAGE_CONNECTION_1 = acme` and
`AZURE_STORAGE_CONNECTION_1_URL = " https://x/ "` set, service-level
resolution of `acme` does not return the record with the raw value
`" https://x/ "`; it returns the trimmed URL. -/
theorem blobOptions_url_not_verbatim :
    envGet envPadded "AZURE_STORAGE_CONNECTION_1" = some "acme" ∧
      envGet envPadded "AZURE_STORAGE_CONNECTION_1_URL" = some " https://x/ " ∧
      defaultGetBlobStorageClientOptions envPadded "acme" ≠ .ok { url := " https://x/ " } ∧
      defaultGetBlobStorageClientOptions envPadded "acme" = .ok { url := "https://x/" } :=
  ⟨rfl, rfl, by decide, rfl⟩

/-- Claim C2 (amended): for all `(name, index)` pairs where `index` is
the connection index that resolution returns for `name`, and
`AZURE_STORAGE_CONNECTION_<index>_URL` is set to `U` with `trim(U)`
non-empty, service-level resolution succeeds and returns
`{url: trim(U)}` (so `{url: U}` exactly when `U` carries no
surrounding whitespace). -/
theorem blobOptions_returns_trimmed_url (env : Env) (name : String) (idx : Int) (u : String)
    (hidx : getAzureStorageConnectionNrFromEnvVar env name = .ok idx)
    (hurl : envGet env (urlKeyFor idx) = some u)
    (hne : jsTrim u ≠ "") :
    defaultGetBlobStorageClientOptions env name = .ok { url := jsTrim u } := by
  simp only [defaultGetBlobStorageClientOptions, hidx, hurl, Option.map_some']
  rw [if_neg hne]

/-- Witness for the amended C2 at a concrete environment. -/
theorem blobOptions_returns_trimmed_url_witness :
    getAzureStorageConnectionNrFromEnvVar envPadded "acme" = .ok 1 ∧
      envGet envPadded (urlKeyFor 1) = some " https://x/ " ∧
      jsTrim " https://x/ " ≠ "" ∧
      defaultGetBlobStorageClientOptions envPadded "acme" = .ok { url := "https://x/" } :=
  ⟨rfl, rfl, by decide,
    blobOptions_returns_trimmed_url envPadded "acme" 1 " https://x/ " rfl rfl (by decide)⟩

/-- Claim C3: whenever container-level resolution succeeds, its
container field is the trimmed override when the override is
non-empty after trimming (the environment value is then ignored), and
otherwise the trimmed `AZURE_STORAGE_CONNECTION_<index>_CONTAINER`
value; an absent, empty or whitespace-only override falls back to the
environment container (`effectiveContainerSpec` is exactly that
case distinction). -/
theorem containerOptions_effective_container (env : Env) (name : String)
    (container : Option String) (idx : Int) (o : IContainerClientOptions)
    (hidx : getAzureStorageConnectionNrFromEnvVar env name = .ok idx)
    (hok : defaultGetContainerClientOptions env name container = .ok o) :
    effectiveContainerSpec env idx container = some o.container := by
  obtain ⟨idx', so, hidx', hblob, hec, hcne, hurl⟩ :=
    containerOptions_ok_inversion env name container o hok
  rw [hidx] at hidx'
  cases hidx'
  rw [← effectiveContainer_eq_spec]
  exact hec

/-- Witness for C3: a non-empty override takes precedence over the
environment container `logs`. -/
theorem containerOptions_effective_container_witness :
    getAzureStorageConnectionNrFromEnvVar envExample "acme" = .ok 1 ∧
      defaultGetContainerClientOptions envExample "acme" (some " override ") =
        .ok { url := "https://x/", container := "override" } ∧
      effectiveContainerSpec envExample 1 (some " override ") =
        some (IContainerClientOptions.mk "https://x/" "override").container :=
  ⟨rfl, rfl,
    containerOptions_effective_container envExample "acme" (some " override ") 1
      { url := "https://x/", container := "override" } rfl rfl⟩

/-- Claim C4: when the declaration key exists (the index resolves)
but the `_URL` variable is unset, empty or whitespace-only, both
service-level and container-level resolution fail with the
connection-not-found error carrying the requested name. -/
theorem blob_container_fail_url_blank (env : Env) (name : String) (idx : Int)
    (container : Option String)
    (hidx : getAzureStorageConnectionNrFromEnvVar env name = .ok idx)
    (hurl : ∀ u, envGet env (urlKeyFor idx) = some u → jsTrim u = "") :
    defaultGetBlobStorageClientOptions env name =
        .error ("Azure storage connection " ++ name ++ " not found") ∧
      defaultGetContainerClientOptions env name container =
        .error ("Azure storage connection " ++ name ++ " not found") := by
  have hblob : defaultGetBlobStorageClientOptions env name =
      .error ("Azure storage connection " ++ name ++ " not found") := by
    simp only [defaultGetBlobStorageClientOptions, hidx]
    cases hu : envGet env (urlKeyFor idx) with
    | none => rfl
    | some u => simp only [Option.map_some']; rw [if_pos (hurl u hu)]
  refine ⟨hblob, ?_⟩
  simp only [defaultGetContainerClientOptions, hidx, hblob]

/-- Witness for C4: connection `beta` declares index 2 whose URL is
whitespace-only. -/
theorem blob_container_fail_url_blank_witness :
    defaultGetBlobStorageClientOptions envNoUrl "beta" =
        .error "Azure storage connection beta not found" ∧
      defaultGetContainerClientOptions envNoUrl "beta" none =
        .error "Azure storage connection beta not found" :=
  blob_container_fail_url_blank envNoUrl "beta" 2 none rfl
    (fun u h => by
      rw [show envGet envNoUrl (urlKeyFor 2) = some "   " from rfl] at h
      cases h
      rfl)

/-- Claim C5: when the index and URL resolve but neither the trimmed
caller override nor the trimmed `_CONTAINER` environment value is
non-empty, container-level resolution fails with the fixed message
`No container defined`, a constant that does not incorporate the
requested connection name. -/
theorem containerOptions_fails_no_container (env : Env) (name : String)
    (container : Option String) (idx : Int) (bo : IBlobStorageClientOptions)
    (hidx : getAzureStorageConnectionNrFromEnvVar env name = .ok idx)
    (hblob : defaultGetBlobStorageClientOptions env name = .ok bo)
    (hov : ∀ s, container = some s → jsTrim s = "")
    (henv : ∀ v, envGet env (containerKeyFor idx) = some v → jsTrim v = "") :
    defaultGetContainerClientOptions env name container = .error "No container defined" := by
  have henvmap : ∀ c, (envGet env (containerKeyFor idx)).map jsTrim = some c → c = "" := by
    intro c h
    cases hcv : envGet env (containerKeyFor idx) with
    | none => rw [hcv, Option.map_none'] at h; exact Option.noConfusion h
    | some v => rw [hcv, Option.map_some'] at h; cases h; exact henv v hcv
  have heff : ∀ c, effectiveContainer env idx container = some c → c = "" := by
    intro c hc
    cases container with
    | none =>
      simp only [effectiveContainer, Option.map_none'] at hc
      exact henvmap c hc
    | some s =>
      simp only [effectiveContainer, Option.map_some'] at hc
      rw [if_pos (hov s rfl)] at hc
      exact henvmap c hc
  simp only [defaultGetContainerClientOptions, hidx, hblob]
  cases hec : effectiveContainer env idx container with
  | none => rfl
  | some c => exact if_pos (heff c hec)

/-- Witness for C5: connection `gamma` has a URL but no `_CONTAINER`
variable, and the override is whitespace-only. -/
theorem containerOptions_fails_no_container_witness :
    defaultGetContainerClientOptions envNoContainer "gamma" (some "  ") =
      .error "No container defined" :=
  containerOptions_fails_no_container envNoContainer "gamma" (some "  ") 3
    { url := "https://y/" } rfl rfl
    (fun s h => by cases h; rfl)
    (fun v h => by
      rw [show envGet envNoContainer (containerKeyFor 3) = none from rfl] at h
      exact Option.noConfusion h)

/-- Claim C6: for every static options record, the provider returned
by a factory builder called with the record equals the provider
returned by the same builder called with the constant function always
returning that record, for both factory flavors. -/
theorem factory_static_options_eq_constant_function
    (o : IBlobStorageClientOptions) (p : IContainerClientOptions) :
    createGetBlobServiceClientFactory (.obj o) =
        createGetBlobServiceClientFactory (.func (fun _ => .ok o)) ∧
      createGetContainerClientFactory (.obj p) =
        createGetContainerClientFactory (.func (fun _ _ => .ok p)) :=
  ⟨rfl, rfl⟩

/-- Claim C7 (evaluation at the failing input): factory construction
applied to a value that is neither a function nor an options object
succeeds and returns a provider — the `typeof` guard sits after the
normalization that wrapped the value in a function, so it can never
throw, contrary to the claimed fail-fast behavior. -/
theorem factory_construction_succeeds_on_any_argument :
    (createGetBlobServiceClientFactory .other).isOk = true ∧
      (createGetContainerClientFactory .other).isOk = true :=
  ⟨rfl, rfl⟩

/-- Claim C8: the worked example scenario of the specification:
under `envExample`, the pre-bound container retrieval resolves
`acme` to `{url: "https://x/", container: "logs"}`, resolves `acme`
with override `override` to `{url: "https://x/", container:
"override"}`, and fails for `unknown` with the connection-not-found
error carrying `unknown`. -/
theorem getContainerClient_example_scenario :
    getContainerClient envExample "acme" none =
        .ok { connectionString := "https://x/", containerName := "logs" } ∧
      getContainerClient envExample "acme" (some "override") =
        .ok { connectionString := "https://x/", containerName := "override" } ∧
      getContainerClient envExample "unknown" none =
        .error "No azure storage connection unknown found or defined" :=
  ⟨rfl, rfl, rfl⟩

/-- Claim C9: a declaration key whose digits segment carries leading
zeros (`AZURE_STORAGE_CONNECTION_007`) resolves to the parsed integer
7, and the suffixed lookups use the canonical decimal representation:
the URL and container are read from the `_7_`-keys (values `u`, `c`),
never from the `_007_`-keys, whatever values `v`, `w` those hold. -/
theorem leadingZeros_canonical_decimal_lookup (name u v c w : String)
    (hname : jsTrim name = name) (hu : jsTrim u ≠ "") (hc : jsTrim c ≠ "") :
    getAzureStorageConnectionNrFromEnvVar (env007 name u v c w) name = .ok 7 ∧
      defaultGetBlobStorageClientOptions (env007 name u v c w) name =
        .ok { url := jsTrim u } ∧
      defaultGetContainerClientOptions (env007 name u v c w) name none =
        .ok { url := jsTrim u, container := jsTrim c } := by
  have hkeys : (envKeys (env007 name u v c w)).filter matchesConnectionKey =
      ["AZURE_STORAGE_CONNECTION_007"] := rfl
  have hval : envGet (env007 name u v c w) "AZURE_STORAGE_CONNECTION_007" = some name := rfl
  have hcond : (jsTrim name == name) = true := by rw [hname]; exact beq_self_eq_true name
  have h1 : getAzureStorageConnectionNrFromEnvVar (env007 name u v c w) name = .ok 7 := by
    simp only [getAzureStorageConnectionNrFromEnvVar, hkeys, List.filter_cons, List.filter_nil,
      hval, hcond, if_true]
    rfl
  have hu7 : envGet (env007 name u v c w) (urlKeyFor 7) = some u := rfl
  have h2 : defaultGetBlobStorageClientOptions (env007 name u v c w) name =
      .ok { url := jsTrim u } := by
    simp only [defaultGetBlobStorageClientOptions, h1, hu7, Option.map_some']
    rw [if_neg hu]
  have hc7 : envGet (env007 name u v c w) (containerKeyFor 7) = some c := rfl
  have h3 : defaultGetContainerClientOptions (env007 name u v c w) name none =
      .ok { url := jsTrim u, container := jsTrim c } := by
    simp only [defaultGetContainerClientOptions, h1, h2, effectiveContainer, Option.map_none',
      hc7, Option.map_some']
    rw [if_neg hc]
  exact ⟨h1, h2, h3⟩

/-- Witness for C9 at concrete values. -/
theorem leadingZeros_canonical_decimal_lookup_witness :
    jsTrim "conn" = "conn" ∧ jsTrim "u" ≠ "" ∧ jsTrim "c" ≠ "" ∧
      (getAzureStorageConnectionNrFromEnvVar (env007 "conn" "u" "v" "c" "w") "conn" = .ok 7 ∧
        defaultGetBlobStorageClientOptions (env007 "conn" "u" "v" "c" "w") "conn" =
          .ok { url := "u" } ∧
        defaultGetContainerClientOptions (env007 "conn" "u" "v" "c" "w") "conn" none =
          .ok { url := "u", container := "c" }) :=
  ⟨rfl, by decide, by decide,
    leadingZeros_canonical_decimal_lookup "conn" "u" "v" "c" "w" rfl (by decide) (by decide)⟩

/-- Claim C10: whenever container-level resolution succeeds, its url
field equals the url field returned by service-level resolution for
the same name under the same environment. -/
theorem containerOptions_url_eq_blobOptions_url (env : Env) (name : String)
    (container : Option String) (o : IContainerClientOptions)
    (hok : defaultGetContainerClientOptions env name container = .ok o) :
    defaultGetBlobStorageClientOptions env name = .ok { url := o.url } := by
  obtain ⟨idx, so, hidx, hblob, hec, hcne, hurl⟩ :=
    containerOptions_ok_inversion env name container o hok
  rw [hblob, hurl]

/-- Witness for C10 at the example environment. -/
theorem containerOptions_url_eq_blobOptions_url_witness :
    defaultGetContainerClientOptions envExample "acme" none =
        .ok { url := "https://x/", container := "logs" } ∧
      defaultGetBlobStorageClientOptions envExample "acme" = .ok { url := "https://x/" } :=
  ⟨rfl,
    containerOptions_url_eq_blobOptions_url envExample "acme" none
      { url := "https://x/", container := "logs" } rfl⟩

end AzureStorage
